import Mathlib

/-!
Verification development for the MangaDex release-tracking Discord bot
(`src/bot.py`).  The poll-cycle logic, candidate resolution, tracking
registry and persistence layer are shallowly embedded as executable Lean
definitions and the specification's claims are settled against them.

Modelling conventions:
* ISO-8601 timestamps are modelled by their parsed instants (`Nat`);
  `parse_iso` never changes the relative order of valid timestamps, and the
  code only ever compares parsed values.  An absent or falsy (`None`/empty)
  timestamp field is `none`.
* Network and Discord effects are oracles passed to the cycle: the outcome
  of a MangaDex fetch is `Option (List RawChapter)` (`none` = the HTTP call
  raised), the outcome of each `channel.send` attempt is a `Bool`
  (`false` = `discord.Forbidden` or any other exception — the code handles
  both identically with `break`), and the outcome of each `save_data` call
  is a `Bool` (`false` = an I/O error raised by the write).
* Python dicts preserve insertion order; they are modelled as association
  lists, with insertion of a fresh key appending at the end.
-/

namespace MangadexBot

/-- One raw element of the `data` array returned by the MangaDex `/chapter`
endpoint, as consumed by `fetch_latest_for_series` (bot.py:133-139):
`id`, `attributes.chapter` and `attributes.readableAt`, each possibly
absent.  A falsy (empty) `id` string is representable as `some ""`. -/
structure RawChapter where
  id : Option String
  chapter : Option String
  readableAt : Option Nat
deriving DecidableEq, Repr

/-- A resolved chapter record as built by `fetch_latest_for_series`
(bot.py:147-154). -/
structure Chapter where
  id : String
  chapter : String
  url : String
  readableAt : Nat
deriving DecidableEq, Repr

/-- `attr.get("chapter") or "?"` (bot.py:136): the chapter label defaults to
`"?"` when the field is absent or falsy. -/
def chapterLabel (c : Option String) : String :=
  match c with
  | none => "?"
  | some s => if s = "" then "?" else s

/-- The filter at bot.py:143-145, `if since_dt and ch_dt <= since_dt:
continue`: a chapter is kept when there is no watermark, or when its
parsed time is strictly newer than the watermark. -/
def keepSince (since_ts : Option Nat) (ts : Nat) : Bool :=
  match since_ts with
  | none => true
  | some s => decide (s < ts)

/-- The per-element body of the loop at bot.py:133-154: drop the element if
`id` or `readableAt` is falsy; in a steady-state call also drop it unless
its parsed time is strictly newer than `since_ts`; otherwise build the
chapter record (with its permanent mangadex URL). -/
def convChapter (since_ts : Option Nat) (ch : RawChapter) : Option Chapter :=
  match ch.id, ch.readableAt with
  | some cid, some ts =>
    if cid = "" then none
    else if keepSince since_ts ts then
      some ⟨cid, chapterLabel ch.chapter, "https://mangadex.org/chapter/" ++ cid, ts⟩
    else none
  | _, _ => none

/-- Sort order used at bot.py:157:
`chapters.sort(key=lambda x: parse_iso(x["readableAt"]))`. -/
def readableLe (a b : Chapter) : Prop := a.readableAt ≤ b.readableAt

instance : DecidableRel readableLe := fun a b => Nat.decLe a.readableAt b.readableAt

instance : IsTotal Chapter readableLe := ⟨fun a b => Nat.le_total a.readableAt b.readableAt⟩

instance : IsTrans Chapter readableLe := ⟨fun _ _ _ => Nat.le_trans⟩

/-- Pure part of `fetch_latest_for_series` (bot.py:126-158), applied to the
`data` array of the HTTP response: convert/filter each element in order,
then sort ascending by parsed `readableAt`.  Python's `list.sort` is a
stable sort by the given key; insertion sort with the non-strict key order
is extensionally the same function (stable sorts of a list by the same key
agree). -/
def fetch_latest_for_series (items : List RawChapter) (since_ts : Option Nat) :
    List Chapter :=
  List.insertionSort readableLe (items.filterMap (convChapter since_ts))

/-- One value of the `tracked_series` mapping
(`series_id -> {name, last_seen_ts, role_id}`, bot.py:63, 315-319).
`last_seen_ts` is the per-series watermark (`none` = never primed). -/
structure SeriesData where
  name : String
  last_seen_ts : Option Nat
  role_id : Option Nat
deriving DecidableEq, Repr

/-- One value of `data["guilds"]` (bot.py:61-64). -/
structure GuildData where
  announce_channel_id : Option Nat
  tracked_series : List (String × SeriesData)
deriving DecidableEq, Repr

/-- The delivery loop at bot.py:220-238: for each chapter in order attempt
`channel.send`; any exception `break`s out; after a successful send,
`latest_ts_for_series` becomes that chapter's `readableAt`.  `send i` is
the outcome of the `i`-th send attempt; the result is the final
`latest_ts_for_series` together with the chapters actually delivered. -/
def deliverLoop (send : Nat → Bool) : Nat → Nat → List Chapter → Nat × List Chapter
  | _, latestTs, [] => (latestTs, [])
  | idx, latestTs, ch :: rest =>
    if send idx then
      let r := deliverLoop send (idx + 1) ch.readableAt rest
      (r.1, ch :: r.2)
    else (latestTs, [])

/-- The per-series body of `check_releases` (bot.py:185-242).
`fetch since` is the outcome of `fetch_latest_for_series` at that `since`
value (`none` = the HTTP call raised).  Returns the updated series record,
the chapters delivered this cycle, and whether the priming branch ran
`save_data` (bot.py:201).

* `last_seen_ts = none` (priming, bot.py:189-204): on fetch failure or an
  empty result, unchanged; otherwise the watermark becomes the
  `readableAt` of the last element of the (ascending-sorted) fetch result
  and no chapter is delivered.
* `last_seen_ts = some last` (steady state, bot.py:206-242): on fetch
  failure or no new chapters, unchanged; otherwise run the delivery loop
  and commit `latest_ts_for_series` as the new watermark. -/
def processSeries (fetch : Option Nat → Option (List RawChapter))
    (send : Nat → Bool) (sdata : SeriesData) :
    SeriesData × List Chapter × Bool :=
  match sdata.last_seen_ts with
  | none =>
    match fetch none with
    | none => (sdata, [], false)
    | some items =>
      let all_recent := fetch_latest_for_series items none
      match all_recent.getLast? with
      | none => (sdata, [], false)
      | some latest => ({ sdata with last_seen_ts := some latest.readableAt }, [], true)
  | some last =>
    match fetch (some last) with
    | none => (sdata, [], false)
    | some items =>
      let new_chapters := fetch_latest_for_series items (some last)
      if new_chapters.isEmpty then (sdata, [], false)
      else
        let r := deliverLoop send 0 last new_chapters
        ({ sdata with last_seen_ts := some r.1 }, r.2, false)

/-- Outcomes of the external effects during one `check_releases` cycle.
`saveOk k` is the outcome of the `k`-th `save_data` call of the cycle
(`false` = the write raised an I/O error). -/
structure CycleEnv where
  channelOk : Nat → Bool
  fetch : String → Option Nat → Option (List RawChapter)
  send : String → String → Nat → Bool
  saveOk : Nat → Bool

/-- The series loop of `check_releases` for one guild (bot.py:185-242),
threading the `save_data` call counter.  A failed priming save raises, so
processing aborts: the already-committed in-memory update to the current
series is kept and the remaining series are left untouched.  Returns
(updated series list, delivered chapters, next save counter, aborted?). -/
def processSeriesList (env : CycleEnv) (gid : String) :
    Nat → List (String × SeriesData) →
      List (String × SeriesData) × List Chapter × Nat × Bool
  | k, [] => ([], [], k, false)
  | k, (sid, sdata) :: rest =>
    let r := processSeries (env.fetch sid) (env.send gid sid) sdata
    if r.2.2 then
      if env.saveOk k then
        let t := processSeriesList env gid (k + 1) rest
        ((sid, r.1) :: t.1, r.2.1 ++ t.2.1, t.2.2)
      else ((sid, r.1) :: rest, r.2.1, k + 1, true)
    else
      let t := processSeriesList env gid k rest
      ((sid, r.1) :: t.1, r.2.1 ++ t.2.1, t.2.2)

/-- The per-guild body of `check_releases` (bot.py:168-243): skip the guild
when no announce channel is configured, when the channel cannot be
resolved, or when nothing is tracked; otherwise process the series list
and finally run the per-guild `save_data` (bot.py:243), whose failure
raises and aborts the cycle. -/
def processGuild (env : CycleEnv) (k : Nat) (gid : String) (g : GuildData) :
    GuildData × List Chapter × Nat × Bool :=
  match g.announce_channel_id with
  | none => (g, [], k, false)
  | some ch =>
    if env.channelOk ch then
      if g.tracked_series.isEmpty then (g, [], k, false)
      else
        let r := processSeriesList env gid k g.tracked_series
        let g' : GuildData := { g with tracked_series := r.1 }
        if r.2.2.2 then (g', r.2.1, r.2.2.1, true)
        else if env.saveOk r.2.2.1 then (g', r.2.1, r.2.2.1 + 1, false)
        else (g', r.2.1, r.2.2.1 + 1, true)
    else (g, [], k, false)

/-- One full `check_releases` cycle (bot.py:163-243) over the guild list
(keyed, as in `data["guilds"]`, by the stringified guild id).  An
uncaught `save_data` exception propagates out of the cycle body: the
remaining guilds are left untouched and the cycle ends with
`aborted = true`. -/
def check_releases (env : CycleEnv) :
    Nat → List (String × GuildData) →
      List (String × GuildData) × List Chapter × Nat × Bool
  | k, [] => ([], [], k, false)
  | k, (gid, g) :: rest =>
    let r := processGuild env k gid g
    if r.2.2.2 then ((gid, r.1) :: rest, r.2.1, r.2.2.1, true)
    else
      let t := check_releases env r.2.2.1 rest
      ((gid, r.1) :: t.1, r.2.1 ++ t.2.1, t.2.2)

/-- `value.startswith pat` on character lists (used to model Python's
substring test). -/
def startsWithList (pat : List Char) (s : List Char) : Bool :=
  match pat, s with
  | [], _ => true
  | _ :: _, [] => false
  | a :: as, b :: bs => a = b && startsWithList as bs

/-- Python's `pat in s` substring test, on character lists. -/
def containsSub (pat : List Char) : List Char → Bool
  | [] => startsWithList pat []
  | c :: cs => startsWithList pat (c :: cs) || containsSub pat cs

/-- Python's `s.strip("/")`: remove leading and trailing `/` characters. -/
def stripSlashes (s : List Char) : List Char :=
  ((s.dropWhile (· = '/')).reverse.dropWhile (· = '/')).reverse

/-- Python's `s.split("/")`: split at every `/`, keeping empty segments;
`"".split("/") = [""]`. -/
def splitSlashes : List Char → List (List Char)
  | [] => [[]]
  | c :: cs =>
    if c = '/' then [] :: splitSlashes cs
    else
      match splitSlashes cs with
      | [] => [[c]]
      | p :: ps => (c :: p) :: ps

/-- `extract_mangadex_id` (bot.py:271-283): if the argument contains
`"mangadex.org"`, return the first `/`-separated segment of the
`/`-stripped argument that contains a `-` and has length ≥ 8; in every
other case return the argument unchanged. -/
def extract_mangadex_id (series_arg : String) : String :=
  if containsSub "mangadex.org".data series_arg.data then
    match (splitSlashes (stripSlashes series_arg.data)).find?
        (fun p => p.contains '-' && decide (8 ≤ p.length)) with
    | some part => ⟨part⟩
    | none => series_arg
  else series_arg

/-- Result of the `!track` command's registration step. -/
inductive TrackResult where
  | alreadyTracked (existing : SeriesData)
  | ok
deriving DecidableEq, Repr

/-- The state transition of `track_series` (bot.py:286-323): extract the
series id from the raw argument; if it is already tracked, report the
existing record and leave the guild unchanged; otherwise append a fresh
record with `last_seen_ts = None` and the given role. -/
def track_series (g : GuildData) (series_id_or_url : String) (role_id : Nat)
    (name : String) : GuildData × TrackResult :=
  let series_id := extract_mangadex_id series_id_or_url
  match g.tracked_series.lookup series_id with
  | some s => (g, .alreadyTracked s)
  | none =>
    ({ g with tracked_series :=
        g.tracked_series ++ [(series_id, ⟨name, none, some role_id⟩)] }, .ok)

/-- The full durable state (`data`, bot.py:35): the `"guilds"` mapping from
stringified guild id to guild record. -/
abbrev Snapshot := List (String × GuildData)

/-- JSON values, restricted to the forms the bot's snapshot uses
(`json.dump` at bot.py:32 emits exactly null, numbers, strings and
objects for this data). -/
inductive Json where
  | null
  | num (n : Nat)
  | str (s : String)
  | obj (fields : List (String × Json))

/-- Encoding of an optional number field (`None` vs a number). -/
def encodeOptNum : Option Nat → Json
  | none => .null
  | some n => .num n

/-- JSON form of one `tracked_series` value (bot.py:315-319).
`last_seen_ts` is stored as its (modelled) timestamp. -/
def encodeSeries (s : SeriesData) : Json :=
  .obj [("name", .str s.name),
        ("last_seen_ts", encodeOptNum s.last_seen_ts),
        ("role_id", encodeOptNum s.role_id)]

/-- JSON form of one guild record (bot.py:61-64). -/
def encodeGuild (g : GuildData) : Json :=
  .obj [("announce_channel_id", encodeOptNum g.announce_channel_id),
        ("tracked_series", .obj (g.tracked_series.map fun p => (p.1, encodeSeries p.2)))]

/-- `save_data` (bot.py:30-32) at the JSON-value level: the document
written is the whole `data` dict, `{"guilds": {...}}`.  Serialising a
JSON value to text and parsing it back is the identity, so the file
layer is dropped from the model. -/
def save_data (snap : Snapshot) : Json :=
  .obj [("guilds", .obj (snap.map fun p => (p.1, encodeGuild p.2)))]

/-- Decoding of an optional number field. -/
def decodeOptNum : Json → Option (Option Nat)
  | .null => some none
  | .num n => some (some n)
  | _ => none

/-- Decoding of one `tracked_series` value. -/
def decodeSeries : Json → Option SeriesData
  | .obj [("name", .str n), ("last_seen_ts", ts), ("role_id", r)] => do
    let t ← decodeOptNum ts
    let ro ← decodeOptNum r
    some ⟨n, t, ro⟩
  | _ => none

/-- Decoding of the `tracked_series` object, entry by entry. -/
def decodeSeriesEntries : List (String × Json) → Option (List (String × SeriesData))
  | [] => some []
  | (k, j) :: rest => do
    let s ← decodeSeries j
    let t ← decodeSeriesEntries rest
    some ((k, s) :: t)

/-- Decoding of one guild record. -/
def decodeGuild : Json → Option GuildData
  | .obj [("announce_channel_id", a), ("tracked_series", .obj ts)] => do
    let ch ← decodeOptNum a
    let t ← decodeSeriesEntries ts
    some ⟨ch, t⟩
  | _ => none

/-- Decoding of the `"guilds"` object, entry by entry. -/
def decodeGuildEntries : List (String × Json) → Option Snapshot
  | [] => some []
  | (k, j) :: rest => do
    let g ← decodeGuild j
    let t ← decodeGuildEntries rest
    some ((k, g) :: t)

/-- `load_data` (bot.py:23-27) at the JSON-value level: parse the persisted
document back into a snapshot; `none` models `StorageCorrupt` (an
unparseable document). -/
def load_data (j : Json) : Option Snapshot :=
  match j with
  | .obj [("guilds", .obj gs)] => decodeGuildEntries gs
  | _ => none

/-- Validity test for one raw index element, the complement of the drop
condition `if not ch_id or not readable_at: continue` (bot.py:138). -/
def validRaw (ch : RawChapter) : Bool :=
  (match ch.id with
   | some s => !(s == "")
   | none => false) && ch.readableAt.isSome

/-- Watermark order: `none` (unprimed) precedes every primed value, and
primed values compare by instant. -/
def tsLe : Option Nat → Option Nat → Prop
  | none, _ => True
  | some _, none => False
  | some a, some b => a ≤ b

/-- A sequence of poll cycles for one tracked item: each step supplies that
cycle's fetch outcome and delivery outcomes, and the item's record evolves
by `processSeries`. -/
def runCycles (sdata : SeriesData)
    (steps : List ((Option Nat → Option (List RawChapter)) × (Nat → Bool))) :
    SeriesData :=
  steps.foldl (fun s st => (processSeries st.1 st.2 s).1) sdata

end MangadexBot

section SanityChecks

open MangadexBot

example :
    fetch_latest_for_series
      [⟨some "b", some "2", some 7⟩, ⟨some "a", none, some 5⟩, ⟨none, some "3", some 9⟩]
      (some 4) =
      [⟨"a", "?", "https://mangadex.org/chapter/a", 5⟩,
       ⟨"b", "2", "https://mangadex.org/chapter/b", 7⟩] := by decide

example :
    fetch_latest_for_series [⟨some "b", some "2", some 7⟩] (some 7) = [] := by decide

-- priming: watermark jumps to the newest candidate, nothing delivered
example :
    processSeries (fun _ => some [⟨some "a", some "1", some 5⟩, ⟨some "b", some "2", some 9⟩])
      (fun _ => true) ⟨"s", none, none⟩ =
      (⟨"s", some 9, none⟩, [], true) := by decide

-- steady state, second send fails: one delivery, watermark at the first chapter
example :
    processSeries (fun _ => some [⟨some "a", some "1", some 5⟩, ⟨some "b", some "2", some 9⟩])
      (fun i => i == 0) ⟨"s", some 2, none⟩ =
      (⟨"s", some 5, none⟩, [⟨"a", "1", "https://mangadex.org/chapter/a", 5⟩], false) := by decide

end SanityChecks

namespace MangadexBot

lemma convChapter_since_lt {s : Nat} {ch : RawChapter} {c : Chapter}
    (h : convChapter (some s) ch = some c) : s < c.readableAt := by
  rcases hid : ch.id with _ | cid <;> rcases hts : ch.readableAt with _ | ts <;>
    simp only [convChapter, hid, hts] at h
  · exact Option.noConfusion h
  · exact Option.noConfusion h
  · exact Option.noConfusion h
  · split_ifs at h with h1 h2
    cases h
    simpa [keepSince] using h2

lemma convChapter_valid {since_ts : Option Nat} {ch : RawChapter} {c : Chapter}
    (h : convChapter since_ts ch = some c) :
    validRaw ch = true ∧ ch.id = some c.id ∧ ch.readableAt = some c.readableAt := by
  rcases hid : ch.id with _ | cid <;> rcases hts : ch.readableAt with _ | ts <;>
    simp only [convChapter, hid, hts] at h
  · exact Option.noConfusion h
  · exact Option.noConfusion h
  · exact Option.noConfusion h
  · split_ifs at h with h1 h2
    cases h
    simp [validRaw, hid, hts, h1]

lemma convChapter_invalid {ch : RawChapter} (h : validRaw ch = false)
    (since_ts : Option Nat) : convChapter since_ts ch = none := by
  rcases hid : ch.id with _ | cid <;> rcases hts : ch.readableAt with _ | ts <;>
    simp only [convChapter, hid, hts]
  have hcid : cid = "" := by
    simpa [validRaw, hid, hts] using h
  simp [hcid]

lemma mem_fetch_since {items : List RawChapter} {s : Nat} {c : Chapter}
    (h : c ∈ fetch_latest_for_series items (some s)) : s < c.readableAt := by
  rw [fetch_latest_for_series, List.mem_insertionSort] at h
  obtain ⟨a, -, ha⟩ := List.mem_filterMap.mp h
  exact convChapter_since_lt ha

lemma filterMap_convChapter_since (items : List RawChapter) (w : Nat) :
    items.filterMap (convChapter (some w)) =
      (items.filterMap (convChapter none)).filter (fun c => decide (w < c.readableAt)) := by
  induction items with
  | nil => rfl
  | cons ch rest ih =>
    rcases hid : ch.id with _ | cid <;> rcases hts : ch.readableAt with _ | ts
  -- the four cases
    · simp [List.filterMap_cons, convChapter, hid, hts, ih]
    · simp [List.filterMap_cons, convChapter, hid, hts, ih]
    · simp [List.filterMap_cons, convChapter, hid, hts, ih]
    · by_cases hcid : cid = ""
      · simp [List.filterMap_cons, convChapter, hid, hts, hcid, ih]
      · by_cases hk : w < ts
        · simp [List.filterMap_cons, convChapter, keepSince, hid, hts, hcid, hk, ih,
            List.filter_cons]
        · simp [List.filterMap_cons, convChapter, keepSince, hid, hts, hcid, hk, ih,
            List.filter_cons]

lemma filterMap_of_filter_valid (items : List RawChapter) (since_ts : Option Nat) :
    items.filterMap (convChapter since_ts) =
      (items.filter validRaw).filterMap (convChapter since_ts) := by
  induction items with
  | nil => rfl
  | cons ch rest ih =>
    by_cases h : validRaw ch = true
    · simp [List.filterMap_cons, List.filter_cons, h, ih]
    · have hn : validRaw ch = false := by
        cases hv : validRaw ch
        · rfl
        · exact absurd hv h
      simp [List.filterMap_cons, List.filter_cons, hn, convChapter_invalid hn, ih]

lemma filter_key_orderedInsert (t : Nat) (c : Chapter) (l : List Chapter) :
    (List.orderedInsert readableLe c l).filter (fun x => x.readableAt == t) =
      if c.readableAt == t then c :: l.filter (fun x => x.readableAt == t)
      else l.filter (fun x => x.readableAt == t) := by
  induction l with
  | nil => simp [List.orderedInsert, List.filter_cons]
  | cons b bs ih =>
    by_cases hcb : readableLe c b
    · rw [List.orderedInsert_of_le _ _ hcb]
      by_cases hct : c.readableAt == t
      · simp [List.filter_cons, hct]
      · simp [List.filter_cons, hct]
    · have hlt : b.readableAt < c.readableAt := by
        simp only [readableLe, not_le] at hcb
        exact hcb
      simp only [List.orderedInsert, if_neg hcb]
      by_cases hct : c.readableAt == t
      · have hct' : c.readableAt = t := by simpa using hct
        have hbt : (b.readableAt == t) = false := by
          simp only [beq_eq_false_iff_ne, ne_eq]
          omega
        simp [List.filter_cons, hbt, hct, ih]
      · by_cases hbt : b.readableAt == t
        · simp [List.filter_cons, hbt, hct, ih]
        · simp [List.filter_cons, hbt, hct, ih]

lemma filter_key_insertionSort (t : Nat) (l : List Chapter) :
    (List.insertionSort readableLe l).filter (fun x => x.readableAt == t) =
      l.filter (fun x => x.readableAt == t) := by
  induction l with
  | nil => rfl
  | cons a l ih =>
    simp only [List.insertionSort]
    rw [filter_key_orderedInsert]
    by_cases h : a.readableAt == t
    · simp [List.filter_cons, h, ih]
    · simp [List.filter_cons, h, ih]

lemma deliverLoop_fst (send : Nat → Bool) :
    ∀ (l : List Chapter) (idx t : Nat),
      (deliverLoop send idx t l).1 = t ∨
        (deliverLoop send idx t l).1 ∈ l.map Chapter.readableAt
  | [], _, _ => Or.inl rfl
  | ch :: rest, idx, t => by
    by_cases h : send idx
    · rcases deliverLoop_fst send rest (idx + 1) ch.readableAt with h1 | h1
      · right
        simp [deliverLoop, h, h1]
      · right
        simp only [deliverLoop, h, if_true, List.map_cons, List.mem_cons]
        exact Or.inr h1
    · left
      simp [deliverLoop, h]

lemma tsLe_refl : ∀ o : Option Nat, tsLe o o
  | none => trivial
  | some _ => Nat.le_refl _

lemma tsLe_trans : ∀ {a b c : Option Nat}, tsLe a b → tsLe b c → tsLe a c
  | none, _, _, _, _ => trivial
  | some _, none, _, h, _ => absurd h not_false
  | some _, some _, none, _, h2 => absurd h2 not_false
  | some _, some _, some _, h1, h2 => Nat.le_trans h1 h2

lemma sorted_readable_getLast {l : List Chapter} (hs : List.Sorted readableLe l)
    (h : l ≠ []) : ∀ c ∈ l, c.readableAt ≤ (l.getLast h).readableAt := by
  induction l with
  | nil => exact absurd rfl h
  | cons a t ih =>
    intro c hc
    cases t with
    | nil =>
      rcases List.mem_singleton.mp hc with rfl
      exact Nat.le_refl _
    | cons b t2 =>
      obtain ⟨ha, ht⟩ := List.pairwise_cons.mp hs
      rw [List.getLast_cons (List.cons_ne_nil b t2)]
      rcases List.mem_cons.mp hc with rfl | hc2
      · exact Nat.le_trans (ha _ (List.getLast_mem _)) (Nat.le_refl _)
      · exact ih ht (List.cons_ne_nil b t2) c hc2

/-- C4: in the steady-state case the resolved batch is, up to order,
exactly the set of candidates whose `publishedAt` is strictly greater
than the watermark (candidates equal to the watermark excluded), and it
is sorted ascending by `publishedAt` — for every raw response, i.e.
regardless of the order the index returned the items in. -/
theorem claim_C4 (items : List RawChapter) (w : Nat) :
    (fetch_latest_for_series items (some w)).Perm
        ((items.filterMap (convChapter none)).filter (fun c => decide (w < c.readableAt))) ∧
    List.Sorted readableLe (fetch_latest_for_series items (some w)) ∧
    ∀ c ∈ fetch_latest_for_series items (some w), w < c.readableAt := by
  refine ⟨?_, List.sorted_insertionSort readableLe _, fun c hc => mem_fetch_since hc⟩
  rw [fetch_latest_for_series, ← filterMap_convChapter_since]
  exact List.perm_insertionSort readableLe (items.filterMap (convChapter (some w)))

/-- C5 fails on the code: `chapters.sort(key=...)` (bot.py:157) is a stable
sort on `readableAt` alone, with no `installmentId` tie-break.  Two
candidates with equal `publishedAt` arriving as `["b", "a"]` are returned
in arrival order `["b", "a"]` (not lexical order `["a", "b"]`), and
permuting the arrival order changes the resolver's output. -/
theorem claim_C5_counterexample :
    ((fetch_latest_for_series
        [⟨some "b", some "1", some 5⟩, ⟨some "a", some "2", some 5⟩]
        (some 0)).map Chapter.id = ["b", "a"]) ∧
    ((fetch_latest_for_series
        [⟨some "a", some "2", some 5⟩, ⟨some "b", some "1", some 5⟩]
        (some 0)).map Chapter.id = ["a", "b"]) ∧
    fetch_latest_for_series
        [⟨some "b", some "1", some 5⟩, ⟨some "a", some "2", some 5⟩] (some 0) ≠
      fetch_latest_for_series
        [⟨some "a", some "2", some 5⟩, ⟨some "b", some "1", some 5⟩] (some 0) := by
  decide

/-- C5 amended: when two kept candidates have equal `publishedAt`, their
order in the notification batch is the order in which the index returned
them (Python's sort is stable); formally, filtering the batch to any one
timestamp yields exactly the converted candidates with that timestamp in
arrival order.  The resolver is a pure function, so its output is
identical for identical inputs, but it does depend on the arrival order
of equal-`publishedAt` candidates. -/
theorem claim_C5_amended (items : List RawChapter) (since_ts : Option Nat) (t : Nat) :
    (fetch_latest_for_series items since_ts).filter (fun c => c.readableAt == t) =
      (items.filterMap (convChapter since_ts)).filter (fun c => c.readableAt == t) :=
  filter_key_insertionSort t (items.filterMap (convChapter since_ts))

/-- C8: raw index items lacking an identifier or a publish timestamp are
silently dropped: for every raw response, removing them first does not
change the result of `fetch_latest_for_series`, and every returned
chapter stems from a raw item that has both fields. -/
theorem claim_C8 (items : List RawChapter) (since_ts : Option Nat) :
    fetch_latest_for_series items since_ts =
      fetch_latest_for_series (items.filter validRaw) since_ts ∧
    ∀ c ∈ fetch_latest_for_series items since_ts,
      ∃ raw ∈ items, validRaw raw = true ∧ raw.id = some c.id ∧
        raw.readableAt = some c.readableAt := by
  constructor
  · rw [fetch_latest_for_series, fetch_latest_for_series,
      filterMap_of_filter_valid items since_ts]
  · intro c hc
    rw [fetch_latest_for_series, List.mem_insertionSort] at hc
    obtain ⟨raw, hmem, hconv⟩ := List.mem_filterMap.mp hc
    obtain ⟨hv, hid, hts⟩ := convChapter_valid hconv
    exact ⟨raw, hmem, hv, hid, hts⟩

lemma fetch_sorted (items : List RawChapter) (since_ts : Option Nat) :
    List.Sorted readableLe (fetch_latest_for_series items since_ts) :=
  List.sorted_insertionSort readableLe _

lemma processSeries_watermark_mono (fetch : Option Nat → Option (List RawChapter))
    (send : Nat → Bool) (sdata : SeriesData) :
    tsLe sdata.last_seen_ts (processSeries fetch send sdata).1.last_seen_ts := by
  rcases hw : sdata.last_seen_ts with _ | last
  · exact trivial
  · cases hf : fetch (some last) with
    | none =>
      have heq : (processSeries fetch send sdata).1.last_seen_ts = some last := by
        simp [processSeries, hw, hf]
      rw [heq]
      exact Nat.le_refl last
    | some items =>
      by_cases he : (fetch_latest_for_series items (some last)).isEmpty
      · have heq : (processSeries fetch send sdata).1.last_seen_ts = some last := by
          simp [processSeries, hw, hf, he]
        rw [heq]
        exact Nat.le_refl last
      · have heq : (processSeries fetch send sdata).1.last_seen_ts =
            some (deliverLoop send 0 last (fetch_latest_for_series items (some last))).1 := by
          simp [processSeries, hw, hf, he]
        rw [heq]
        show last ≤ (deliverLoop send 0 last (fetch_latest_for_series items (some last))).1
        rcases deliverLoop_fst send (fetch_latest_for_series items (some last)) 0 last with
          h1 | h1
        · rw [h1]
        · obtain ⟨c, hc, hcr⟩ := List.mem_map.mp h1
          rw [← hcr]
          exact Nat.le_of_lt (mem_fetch_since hc)

/-- C1: across any sequence of poll cycles — priming, steady-state
delivery, delivery failure, fetch failure, in any combination — a tracked
item's watermark (`last_seen_ts`) is never set to a value earlier than its
previous value. -/
theorem claim_C1 (sdata : SeriesData)
    (steps : List ((Option Nat → Option (List RawChapter)) × (Nat → Bool))) :
    tsLe sdata.last_seen_ts (runCycles sdata steps).last_seen_ts := by
  induction steps generalizing sdata with
  | nil => exact tsLe_refl _
  | cons st rest ih =>
    exact tsLe_trans (processSeries_watermark_mono st.1 st.2 sdata)
      (ih (processSeries st.1 st.2 sdata).1)

lemma deliverLoop_fail (send : Nat → Bool) :
    ∀ (l : List Chapter) (k idx t : Nat), k < l.length →
      (∀ i, i < k → send (idx + i) = true) → send (idx + k) = false →
      deliverLoop send idx t l =
        ((t :: l.map Chapter.readableAt).getD k 0, l.take k)
  | [], k, idx, t, hk, _, _ => absurd hk (by simp)
  | ch :: rest, 0, idx, t, _, _, hfail => by
    have h0 : send idx = false := by simpa using hfail
    simp [deliverLoop, h0]
  | ch :: rest, k + 1, idx, t, hk, hsucc, hfail => by
    have h0 : send idx = true := by simpa using hsucc 0 (Nat.succ_pos k)
    have ih := deliverLoop_fail send rest k (idx + 1) ch.readableAt
      (by simpa using hk)
      (fun i hi => by
        have harith : idx + 1 + i = idx + (i + 1) := by omega
        rw [harith]
        exact hsucc (i + 1) (by omega))
      (by
        have harith : idx + 1 + k = idx + (k + 1) := by omega
        rw [harith]
        exact hfail)
    simp [deliverLoop, h0, ih]

/-- C2: in a steady-state cycle, a delivery failure aborts the remaining
deliveries for the item this cycle and the committed watermark advances
only up through the `publishedAt` of the last successfully delivered
installment.  For any resolved batch and any failure position `k` (the
first `k` sends succeed, the `k`-th fails — `discord.Forbidden` and any
other delivery failure behave identically), exactly the first `k`
installments are delivered and the committed watermark is the
`publishedAt` of the `k`-th batch entry counting from the old watermark
(the old watermark itself when `k = 0`).  With two new installments and
the failure at `k = 1`, exactly one notification is delivered and the
watermark equals the first installment's `publishedAt` (see the
witness). -/
theorem claim_C2 (sdata : SeriesData) (last : Nat) (items : List RawChapter)
    (send : Nat → Bool) (k : Nat)
    (hw : sdata.last_seen_ts = some last)
    (hk : k < (fetch_latest_for_series items (some last)).length)
    (hsucc : ∀ i, i < k → send i = true)
    (hfail : send k = false) :
    processSeries (fun _ => some items) send sdata =
      ({ sdata with last_seen_ts := some ((last ::
          (fetch_latest_for_series items (some last)).map Chapter.readableAt).getD k 0) },
        (fetch_latest_for_series items (some last)).take k, false) := by
  have hlist := deliverLoop_fail send (fetch_latest_for_series items (some last))
    k 0 last hk
    (fun i hi => by rw [Nat.zero_add]; exact hsucc i hi)
    (by rw [Nat.zero_add]; exact hfail)
  have hempty : (fetch_latest_for_series items (some last)).isEmpty = false := by
    cases hfc : fetch_latest_for_series items (some last) with
    | nil => rw [hfc] at hk; exact absurd hk (by simp)
    | cons a l => rfl
  simp only [processSeries, hw]
  simp [hempty, hlist]

/-- Witness for C2 at a concrete input: watermark 2, candidates arriving
newest-first with instants 9 and 5 (resolved batch of two), first send
succeeds, second fails — one delivery, watermark at the first
installment's instant 5. -/
theorem claim_C2_witness :
    processSeries
        (fun _ => some [⟨some "b", some "2", some 9⟩, ⟨some "a", some "1", some 5⟩])
        (fun i => i == 0) ⟨"s", some 2, none⟩ =
      (⟨"s", some 5, none⟩, [⟨"a", "1", "https://mangadex.org/chapter/a", 5⟩], false) :=
  claim_C2 ⟨"s", some 2, none⟩ 2
    [⟨some "b", some "2", some 9⟩, ⟨some "a", some "1", some 5⟩]
    (fun i => i == 0) 1 rfl (by decide) (by decide) rfl

/-- C3: on an unprimed item's cycle with a successful fetch, a non-empty
candidate sequence primes the watermark to the `publishedAt` of the
candidate with the latest `publishedAt` and delivers nothing, while an
empty candidate sequence leaves the watermark `none`. -/
theorem claim_C3 (sdata : SeriesData) (items : List RawChapter) (send : Nat → Bool)
    (h : sdata.last_seen_ts = none) :
    (fetch_latest_for_series items none = [] →
      processSeries (fun _ => some items) send sdata = (sdata, [], false)) ∧
    (fetch_latest_for_series items none ≠ [] →
      ∃ c ∈ fetch_latest_for_series items none,
        (∀ c' ∈ fetch_latest_for_series items none, c'.readableAt ≤ c.readableAt) ∧
        processSeries (fun _ => some items) send sdata =
          ({ sdata with last_seen_ts := some c.readableAt }, [], true)) := by
  constructor
  · intro he
    simp only [processSeries, h, he, List.getLast?_nil]
  · intro hne
    refine ⟨(fetch_latest_for_series items none).getLast hne, List.getLast_mem hne,
      sorted_readable_getLast (fetch_sorted items none) hne, ?_⟩
    simp only [processSeries, h, List.getLast?_eq_getLast_of_ne_nil hne]

/-- Witness for C3 at a concrete input: two candidates with instants 5 and
9 on an unprimed item. -/
theorem claim_C3_witness :
    ∃ c ∈ fetch_latest_for_series
        [⟨some "a", some "1", some 5⟩, ⟨some "b", some "2", some 9⟩] none,
      (∀ c' ∈ fetch_latest_for_series
          [⟨some "a", some "1", some 5⟩, ⟨some "b", some "2", some 9⟩] none,
        c'.readableAt ≤ c.readableAt) ∧
      processSeries
          (fun _ => some [⟨some "a", some "1", some 5⟩, ⟨some "b", some "2", some 9⟩])
          (fun _ => true) ⟨"s", none, none⟩ =
        ({ (⟨"s", none, none⟩ : SeriesData) with last_seen_ts := some c.readableAt },
          [], true) :=
  (claim_C3 ⟨"s", none, none⟩
    [⟨some "a", some "1", some 5⟩, ⟨some "b", some "2", some 9⟩]
    (fun _ => true) rfl).2 (by decide)

/-- C6: registering an id already tracked in the guild is rejected with the
existing record reported and the guild state (the existing record and
everything else) unchanged; registering a fresh id appends a record with
`last_seen_ts = none`. -/
theorem claim_C6 (g : GuildData) (arg : String) (role : Nat) (name : String) :
    (∀ s, g.tracked_series.lookup (extract_mangadex_id arg) = some s →
      track_series g arg role name = (g, TrackResult.alreadyTracked s)) ∧
    (g.tracked_series.lookup (extract_mangadex_id arg) = none →
      track_series g arg role name =
        ({ g with tracked_series :=
            g.tracked_series ++ [(extract_mangadex_id arg, ⟨name, none, some role⟩)] },
          TrackResult.ok)) := by
  constructor
  · intro s hs
    simp only [track_series, hs]
  · intro hn
    simp only [track_series, hn]

/-- Witness for C6 at concrete inputs: re-registering tracked id `"x"` is
rejected and changes nothing; registering fresh id `"y"` appends an
unprimed record. -/
theorem claim_C6_witness :
    track_series ⟨some 1, [("x", ⟨"Old", some 3, some 7⟩)]⟩ "x" 9 "New" =
      (⟨some 1, [("x", ⟨"Old", some 3, some 7⟩)]⟩,
        TrackResult.alreadyTracked ⟨"Old", some 3, some 7⟩) ∧
    track_series ⟨some 1, [("x", ⟨"Old", some 3, some 7⟩)]⟩ "y" 9 "New" =
      (⟨some 1, [("x", ⟨"Old", some 3, some 7⟩)] ++
          [(extract_mangadex_id "y", ⟨"New", none, some 9⟩)]⟩,
        TrackResult.ok) :=
  ⟨(claim_C6 ⟨some 1, [("x", ⟨"Old", some 3, some 7⟩)]⟩ "x" 9 "New").1
      ⟨"Old", some 3, some 7⟩ (by decide),
   (claim_C6 ⟨some 1, [("x", ⟨"Old", some 3, some 7⟩)]⟩ "y" 9 "New").2 (by decide)⟩

lemma decodeSeries_encodeSeries (s : SeriesData) :
    decodeSeries (encodeSeries s) = some s := by
  cases s with
  | mk n t r => cases t <;> cases r <;> rfl

lemma decodeSeriesEntries_encode (l : List (String × SeriesData)) :
    decodeSeriesEntries (l.map fun p => (p.1, encodeSeries p.2)) = some l := by
  induction l with
  | nil => rfl
  | cons p rest ih =>
    simp only [List.map_cons, decodeSeriesEntries, decodeSeries_encodeSeries, ih,
      Option.bind_eq_bind, Option.some_bind]

lemma decodeGuild_encodeGuild (g : GuildData) :
    decodeGuild (encodeGuild g) = some g := by
  cases g with
  | mk a ts =>
    cases a <;>
      simp only [encodeGuild, decodeGuild, encodeOptNum, decodeOptNum,
        decodeSeriesEntries_encode, Option.bind_eq_bind, Option.some_bind]

lemma decodeGuildEntries_encode (l : Snapshot) :
    decodeGuildEntries (l.map fun p => (p.1, encodeGuild p.2)) = some l := by
  induction l with
  | nil => rfl
  | cons p rest ih =>
    simp only [List.map_cons, decodeGuildEntries, decodeGuild_encodeGuild, ih,
      Option.bind_eq_bind, Option.some_bind]

/-- C9: persisting any snapshot and loading it back yields the same
snapshot (round-trip at the JSON-value level; Python's `json.dump` /
`json.load` are the identity on JSON values of this shape). -/
theorem claim_C9 (snap : Snapshot) : load_data (save_data snap) = some snap :=
  decodeGuildEntries_encode snap

/-- C10: the command-boundary id extraction returns its input unchanged
when the input does not contain `"mangadex.org"`, and also when it does
contain `"mangadex.org"` but no `/`-separated segment of the `/`-stripped
input both contains a hyphen and has length at least 8 — in that case the
full URL itself becomes the value returned (and hence the tracked id). -/
theorem claim_C10 (s : String) :
    (containsSub "mangadex.org".data s.data = false → extract_mangadex_id s = s) ∧
    (containsSub "mangadex.org".data s.data = true →
      (∀ p ∈ splitSlashes (stripSlashes s.data),
        ¬(p.contains '-' = true ∧ 8 ≤ p.length)) →
      extract_mangadex_id s = s) := by
  constructor
  · intro h
    simp only [extract_mangadex_id, h, Bool.false_eq_true, if_false]
  · intro h hall
    have hnone : (splitSlashes (stripSlashes s.data)).find?
        (fun p => p.contains '-' && decide (8 ≤ p.length)) = none := by
      rw [List.find?_eq_none]
      intro p hp
      have := hall p hp
      simp only [Bool.and_eq_true, decide_eq_true_eq]
      tauto
    simp only [extract_mangadex_id, h, if_true, hnone]

/-- Witness for C10 at concrete inputs: a bare id without the marker
substring, and a mangadex URL with no qualifying path segment. -/
theorem claim_C10_witness :
    extract_mangadex_id "abc-123" = "abc-123" ∧
    extract_mangadex_id "https://mangadex.org/title" = "https://mangadex.org/title" :=
  ⟨(claim_C10 "abc-123").1 (by decide),
   (claim_C10 "https://mangadex.org/title").2 (by decide) (by decide)⟩

/-- C7 fails on the code: `save_data` is called inside `check_releases`
with no surrounding `try` (bot.py:201, 243), so an I/O error there
propagates out of the cycle body instead of being recovered locally.
Concretely: two guilds each have one new deliverable chapter; with every
save failing, the first guild's chapter is delivered, the per-guild save
raises, and the cycle aborts — the second guild is never processed and
its chapter is not delivered.  With saves succeeding and all other
outcomes identical, both chapters are delivered and the cycle completes. -/
theorem claim_C7_counterexample :
    (check_releases
        ⟨fun _ => true,
          fun sid _ =>
            if sid = "s1" then some [⟨some "a", some "1", some 5⟩]
            else if sid = "s2" then some [⟨some "b", some "2", some 7⟩] else none,
          fun _ _ _ => true, fun _ => false⟩ 0
        [("1", ⟨some 10, [("s1", ⟨"n1", some 0, none⟩)]⟩),
         ("2", ⟨some 20, [("s2", ⟨"n2", some 0, none⟩)]⟩)] =
      ([("1", ⟨some 10, [("s1", ⟨"n1", some 5, none⟩)]⟩),
        ("2", ⟨some 20, [("s2", ⟨"n2", some 0, none⟩)]⟩)],
       [⟨"a", "1", "https://mangadex.org/chapter/a", 5⟩], 1, true)) ∧
    (check_releases
        ⟨fun _ => true,
          fun sid _ =>
            if sid = "s1" then some [⟨some "a", some "1", some 5⟩]
            else if sid = "s2" then some [⟨some "b", some "2", some 7⟩] else none,
          fun _ _ _ => true, fun _ => true⟩ 0
        [("1", ⟨some 10, [("s1", ⟨"n1", some 0, none⟩)]⟩),
         ("2", ⟨some 20, [("s2", ⟨"n2", some 0, none⟩)]⟩)] =
      ([("1", ⟨some 10, [("s1", ⟨"n1", some 5, none⟩)]⟩),
        ("2", ⟨some 20, [("s2", ⟨"n2", some 7, none⟩)]⟩)],
       [⟨"a", "1", "https://mangadex.org/chapter/a", 5⟩,
        ⟨"b", "2", "https://mangadex.org/chapter/b", 7⟩], 2, false)) := by
  decide

/-- C7 amended: a `save_data` failure is not caught by `check_releases`;
the exception aborts the remainder of the current poll cycle.  If the
cycle processes a prefix of guilds without aborting and then a guild's
processing hits a failed save, the cycle's result keeps the in-memory
updates made so far (the processed prefix and the failing guild's partial
update), delivers nothing for the untouched remaining guilds, and ends
aborted; durable state stays stale until some later cycle's save
succeeds. -/
theorem claim_C7_amended (env : CycleEnv) (k : Nat)
    (pre : List (String × GuildData)) (gid : String) (g : GuildData)
    (post : List (String × GuildData))
    (hpre : (check_releases env k pre).2.2.2 = false)
    (hab : (processGuild env (check_releases env k pre).2.2.1 gid g).2.2.2 = true) :
    check_releases env k (pre ++ (gid, g) :: post) =
      ((check_releases env k pre).1 ++
          (gid, (processGuild env (check_releases env k pre).2.2.1 gid g).1) :: post,
        (check_releases env k pre).2.1 ++
          (processGuild env (check_releases env k pre).2.2.1 gid g).2.1,
        (processGuild env (check_releases env k pre).2.2.1 gid g).2.2.1, true) := by
  induction pre generalizing k with
  | nil =>
    simp only [check_releases] at hab
    simp only [check_releases, List.nil_append, hab, if_true]
  | cons hd pre' ih =>
    obtain ⟨gid0, g0⟩ := hd
    by_cases h0 : (processGuild env k gid0 g0).2.2.2 = true
    · exfalso
      simp [check_releases, h0] at hpre
    · have h0' : (processGuild env k gid0 g0).2.2.2 = false :=
        Bool.eq_false_iff.mpr h0
      simp only [check_releases, h0', Bool.false_eq_true, if_false] at hpre hab ⊢
      simp only [List.cons_append, List.append_eq]
      rw [ih _ hpre hab]
      simp [List.append_assoc]

/-- Witness for C7 amended at a concrete input: the failing guild's save
aborts the cycle and the following guild is returned untouched. -/
theorem claim_C7_amended_witness :
    check_releases
        ⟨fun _ => true, fun _ _ => some [], fun _ _ _ => true, fun _ => false⟩ 0
        ([] ++ ("1", ⟨some 1, [("s", ⟨"n", some 0, none⟩)]⟩) ::
          [("2", (⟨none, []⟩ : GuildData))]) =
      ([("1", ⟨some 1, [("s", ⟨"n", some 0, none⟩)]⟩),
        ("2", (⟨none, []⟩ : GuildData))], [], 1, true) :=
  claim_C7_amended
    ⟨fun _ => true, fun _ _ => some [], fun _ _ _ => true, fun _ => false⟩ 0
    [] "1" ⟨some 1, [("s", ⟨"n", some 0, none⟩)]⟩
    [("2", (⟨none, []⟩ : GuildData))] rfl (by decide)

end MangadexBot
